import Mathlib

/-!
Verification of the finance-tracker ingestion and categorization pipeline.

This development gives a shallow embedding of the two OFX importers
(scripts/import_itau_ofx.py and scripts/import_nubank_ofx.py) and of the rule
applier (scripts/apply_rules.py), and proves or refutes the frozen claims
about them.

Modelling conventions, justified line by line in the doc comments below:
- Python strings are Lean String; pandas NaN cells are Option.none.
- Amounts are exact decimals. Python float parsing and printing are modelled
  on the decimal fragment actually produced by bank statements: an optional
  sign, digits, and an optional fractional part. On that fragment the float
  round trip str(float(s)) reproduces the trimmed decimal, which is what the
  model renders.
- pd.util.hash_pandas_object is a deterministic 64-bit hash of the key string.
  The spec (section 4.3) leaves the algorithm an implementation choice and
  only requires determinism and a fixed 64-bit width, so the model uses a
  concrete deterministic 64-bit hash (FNV-1a) as a stand-in.
- Regular expression search with re.IGNORECASE is modelled for the
  metacharacter-free patterns used by the rule table as case-insensitive
  substring search.
- sort_values("priority") uses the pandas default kind, which is the numpy
  introsort (quicksort with median-of-three partitioning, insertion sort for
  segments of at most 16 elements, heapsort beyond the depth limit). The
  model below reproduces that algorithm, including its argsort index
  behaviour; this matters because introsort is not stable.
-/

/-! ## Small string and number helpers -/

/-- Zero-pads the decimal form of a natural number to the given width. -/
def natPad (n width : Nat) : String :=
  let s := toString n
  String.mk (List.replicate (width - s.length) '0') ++ s

/-- True when the string is nonempty and all characters are decimal digits. -/
def allDigitStr (s : String) : Bool :=
  s.length > 0 && s.toList.all Char.isDigit

/-- Value of a digit run, most significant first. -/
def digitsToNat (cs : List Char) : Nat :=
  cs.foldl (fun n c => n * 10 + (c.toNat - 48)) 0

/-- Whitespace trim on both ends of a character list; models the Python
str.strip used on every extracted field. -/
def trimChars (cs : List Char) : List Char :=
  ((cs.dropWhile Char.isWhitespace).reverse.dropWhile Char.isWhitespace).reverse

/-- Model of the Python str.strip on strings. -/
def strTrim (s : String) : String := String.mk (trimChars s.toList)

/-- Model of the Python str.lower on the ASCII strings of this pipeline. -/
def strLower (s : String) : String := String.mk (s.toList.map Char.toLower)

/-- An exact decimal amount: the value is num divided by ten to the pow.
This models a Python float parsed from a decimal literal; the pipeline never
compares amounts, it only tests their sign and prints them, and on the
decimal literals of bank statements the float round trip str(float(s))
reproduces the trimmed decimal, which renderAmt implements. -/
structure Dec where
  num : Int
  pow : Nat
deriving DecidableEq, Repr, Inhabited

/-- Model of float(str(x).strip()) from both importers, on the decimal
fragment: optional sign, digits, optional dot and fractional digits.
Inputs outside this fragment (exponents, underscores, inf, nan) either raise
in Python or produce NaN and are dropped downstream; both are none here. -/
def parseFloat? (s : String) : Option Dec :=
  let cs := trimChars s.toList
  let neg := match cs with
    | '-' :: _ => true
    | _ => false
  let ds := match cs with
    | '-' :: rest => rest
    | '+' :: rest => rest
    | rest => rest
  let ip := ds.takeWhile Char.isDigit
  let rest := ds.dropWhile Char.isDigit
  match rest with
  | [] =>
    if ip.isEmpty then none
    else
      let v : Int := digitsToNat ip
      some ⟨if neg then -v else v, 0⟩
  | '.' :: frac =>
    if frac.all Char.isDigit && (ip.length + frac.length > 0) then
      let v : Int := digitsToNat ip * 10 ^ frac.length + digitsToNat frac
      some ⟨if neg then -v else v, frac.length⟩
    else none
  | _ => none

/-- Drops trailing zero digits of the fractional expansion. -/
def stripZeros : Nat → Nat → Nat × Nat
  | n, 0 => (n, 0)
  | n, k + 1 => if n % 10 == 0 then stripZeros (n / 10) k else (n, k + 1)

/-- Model of the Python shortest float repr str(float(x)) on exact decimal
values: minimal number of fractional digits, but always at least one (an
integral value prints with a trailing .0, as in Python). -/
def renderAmt (q : Dec) : String :=
  let sgn := if q.num < 0 then "-" else ""
  let p := stripZeros q.num.natAbs q.pow
  let n := p.1
  let k := p.2
  if k == 0 then sgn ++ toString n ++ ".0"
  else sgn ++ toString (n / 10 ^ k) ++ "." ++ natPad (n % 10 ^ k) k

/-- Deterministic 64-bit string hash standing in for
pd.util.hash_pandas_object(key, index=False).astype("uint64"): FNV-1a over
the character codes, reduced modulo 2 to the 64. The spec (section 4.3)
states the concrete algorithm is an implementation choice; every claim
depends only on determinism and on the 64-bit width, which hold here. -/
def hashKey (s : String) : Nat :=
  s.toList.foldl (fun h c => ((h ^^^ c.toNat) * 1099511628211) % 2 ^ 64)
    14695981039346656037

/-! ## Calendar dates

Models pd.to_datetime(..., errors="coerce") on strings of the form
YYYY-MM-DD: a valid Gregorian calendar date within the pandas nanosecond
Timestamp range, else NaT (none). -/

structure Date where
  y : Nat
  m : Nat
  d : Nat
deriving DecidableEq, Repr, Inhabited

def isLeap (y : Nat) : Bool :=
  (y % 4 == 0 && y % 100 != 0) || y % 400 == 0

def daysInMonth (y m : Nat) : Nat :=
  if m == 2 then (if isLeap y then 29 else 28)
  else if m == 4 || m == 6 || m == 9 || m == 11 then 30
  else 31

def dateLE (a b : Date) : Bool :=
  a.y < b.y || (a.y == b.y && (a.m < b.m || (a.m == b.m && a.d ≤ b.d)))

/-- Valid Gregorian date inside the pandas Timestamp range; midnight
timestamps are representable exactly from 1677-09-22 to 2262-04-11. -/
def validTimestamp (dt : Date) : Bool :=
  1 ≤ dt.m && dt.m ≤ 12 && 1 ≤ dt.d && dt.d ≤ daysInMonth dt.y dt.m &&
  dateLE ⟨1677, 9, 22⟩ dt && dateLE dt ⟨2262, 4, 11⟩

/-- Model of the _coerce_date helper shared by both importers: an anchored
match of four, two and two digits at the start of the raw DTPOSTED value,
then pd.to_datetime on the dashed form with errors="coerce". -/
def coerceDate (s : String) : Option Date :=
  let cs := s.toList
  if cs.length ≥ 8 && (cs.take 8).all Char.isDigit then
    let y := digitsToNat (cs.take 4)
    let mo := digitsToNat ((cs.drop 4).take 2)
    let d := digitsToNat ((cs.drop 6).take 2)
    let dt : Date := ⟨y, mo, d⟩
    if validTimestamp dt then some dt else none
  else none

/-- ISO date rendering YYYY-MM-DD, as pandas renders a midnight datetime64
column in astype(str) and to_csv. -/
def dateKeyStr (dt : Date) : String :=
  natPad dt.y 4 ++ "-" ++ natPad dt.m 2 ++ "-" ++ natPad dt.d 2

/-- Model of pd.to_datetime(s, errors="coerce") on a stored ledger date
cell of the form YYYY-MM-DD (the only form this pipeline writes). -/
def parseIsoDate (s : String) : Option Date :=
  match s.toList with
  | [y1, y2, y3, y4, '-', m1, m2, '-', d1, d2] =>
    if [y1, y2, y3, y4, m1, m2, d1, d2].all Char.isDigit then
      let dt : Date := ⟨digitsToNat [y1, y2, y3, y4],
        digitsToNat [m1, m2], digitsToNat [d1, d2]⟩
      if validTimestamp dt then some dt else none
    else none
  | _ => none

/-! ## OFX SGML scanner

Model of _parse_ofx_sgml from both importer scripts: re.findall of
non-greedy STMTTRN blocks with DOTALL and IGNORECASE, and per block a
re.search for a tag marker followed by at least one character other than
carriage return, newline or an opening angle bracket. -/

/-- Case-insensitive prefix test on character lists. -/
def isPrefixCI : List Char → List Char → Bool
  | [], _ => true
  | _ :: _, [] => false
  | p :: ps, c :: cs => (p.toLower == c.toLower) && isPrefixCI ps cs

/-- Leftmost case-insensitive occurrence of pat in s: returns the characters
before the match and the characters after it. -/
def findCI (pat : List Char) : List Char → Option (List Char × List Char)
  | [] => if pat.isEmpty then some ([], []) else none
  | c :: rest =>
    if isPrefixCI pat (c :: rest) then some ([], (c :: rest).drop pat.length)
    else
      match findCI pat rest with
      | none => none
      | some (pre, post) => some (c :: pre, post)

theorem findCI_post_lt (pat : List Char) (s pre post : List Char)
    (hpat : pat ≠ []) (h : findCI pat s = some (pre, post)) :
    post.length < s.length := by
  induction s generalizing pre post with
  | nil =>
    simp only [findCI, List.isEmpty_iff] at h
    split at h
    · exact absurd (by assumption) hpat
    · exact absurd h (by simp)
  | cons c rest ih =>
    simp only [findCI] at h
    split at h
    · simp only [Option.some.injEq, Prod.mk.injEq] at h
      obtain ⟨-, h2⟩ := h
      subst h2
      have hp : 1 ≤ pat.length := by
        cases pat with
        | nil => exact absurd rfl hpat
        | cons _ _ => simp
      simp only [List.length_drop, List.length_cons]
      omega
    · revert h
      match hfind : findCI pat rest with
      | none => intro h; exact absurd h (by simp)
      | some (pre2, post2) =>
        intro h
        simp only [Option.some.injEq, Prod.mk.injEq] at h
        obtain ⟨-, h2⟩ := h
        subst h2
        have := ih pre2 post2 hfind
        simp only [List.length_cons]
        omega

def stmtOpen : List Char := "<STMTTRN>".toList
def stmtClose : List Char := "</STMTTRN>".toList

/-- Fuel-driven loop of the block scan. The fuel is decremented once per
found block; by findCI_post_lt the remaining text shrinks strictly at each
step, so a fuel of one more than the text length is never exhausted. -/
def extractBlocksF : Nat → List Char → List (List Char)
  | 0, _ => []
  | fuel + 1, s =>
    match findCI stmtOpen s with
    | none => []
    | some (_, rest) =>
      match findCI stmtClose rest with
      | none => []
      | some (block, rest2) => block :: extractBlocksF fuel rest2

/-- Model of re.findall with the non-greedy STMTTRN block pattern under
DOTALL and IGNORECASE: repeatedly take the next opening marker and the
closest following closing marker; the capture is the text between them. -/
def extractBlocks (s : List Char) : List (List Char) :=
  extractBlocksF (s.length + 1) s

/-- Fuel-driven loop of the field search; as above the remaining text
shrinks strictly at each retry, so the fuel is never exhausted. -/
def tagScanF (name : List Char) : Nat → List Char → String
  | 0, _ => ""
  | fuel + 1, b =>
    match findCI ('<' :: (name ++ ['>'])) b with
    | none => ""
    | some (_, post) =>
      let run :=
        post.takeWhile (fun c => !(c == '\r' || c == '\n' || c == '<'))
      if run.isEmpty then tagScanF name fuel post
      else String.mk (trimChars run)

/-- Model of the per-block field extraction: re.search of an opening marker
for the named tag followed by at least one character outside carriage
return, newline and opening angle bracket; the regex backtracks past
occurrences followed immediately by one of those, which the recursion
mirrors; the captured run is stripped. Absent tags yield the empty string. -/
def tagScan (name : List Char) (b : List Char) : String :=
  tagScanF name (b.length + 1) b

def tagOf (name : String) (b : List Char) : String := tagScan name.toList b

/-- Raw per-block field map built by _parse_ofx_sgml. The Nubank parser
reads only the first four fields; CHECKNUM and REFNUM are extracted by the
Itau parser. The memo falls back to the NAME tag when MEMO is empty, as in
tag("MEMO") or tag("NAME"). -/
structure RawTrn where
  dtposted : String
  trnamt : String
  memo : String
  fitid : String
  checknum : String
  refnum : String
deriving DecidableEq, Repr, Inhabited

def rawOfBlock (b : List Char) : RawTrn :=
  { dtposted := tagOf "DTPOSTED" b
    trnamt := tagOf "TRNAMT" b
    memo := let m := tagOf "MEMO" b; if m = "" then tagOf "NAME" b else m
    fitid := tagOf "FITID" b
    checknum := tagOf "CHECKNUM" b
    refnum := tagOf "REFNUM" b }

/-- Model of _parse_ofx_sgml applied to the full statement text. -/
def parseOfxSgml (text : String) : List RawTrn :=
  (extractBlocks text.toList).map rawOfBlock


/-! ## Canonical import rows

Model of the standardized DataFrame built by each importer: columns date,
description, amount, source, external_id, file_name, type, tx_id. Rows whose
date or amount coercion fails are dropped by dropna and therefore never
become a Row. -/

structure Row where
  date : Date
  description : String
  amount : Dec
  source : String
  external_id : String
  file_name : String
  ty : String
  tx_id : String
deriving DecidableEq, Repr, Inhabited

/-- Failure raised when a statement contains no STMTTRN blocks; the Python
scripts raise ValueError with a fixed message at this point. -/
inductive ImportError where
  | emptyStatement
deriving DecidableEq, Repr

namespace Itau

/-- Rowwise model of the column pipeline in import_itau_ofx: date and amount
coercion with dropna, memo strip, FITID with REFNUM and CHECKNUM fallback for
external_id, the sign-derived type, and the tx_id key selection where a key
equal to the empty string or to a single pipe falls back to the composite
date, description, amount and source key. -/
def canonRow (fn : String) (r : RawTrn) : Option Row :=
  match coerceDate r.dtposted, parseFloat? r.trnamt with
  | some d, some a =>
    let desc := strTrim r.memo
    let e0 := strTrim r.fitid
    let e := if e0 = "" then strTrim r.refnum ++ "|" ++ strTrim r.checknum else e0
    let key :=
      if e = "" ∨ e = "|" then
        dateKeyStr d ++ "|" ++ desc ++ "|" ++ renderAmt a ++ "|itau"
      else e
    some { date := d, description := desc, amount := a, source := "itau",
           external_id := e, file_name := fn,
           ty := if a.num < 0 then "expense" else "income",
           tx_id := toString (hashKey key) }
  | _, _ => none

/-- Model of import_itau_ofx: parse the statement text, fail when no blocks
were found (the DataFrame of raw rows is empty exactly when the block list
is empty), else canonicalize each raw row and drop coercion failures. -/
def import_itau_ofx (text fn : String) : Except ImportError (List Row) :=
  let rows := parseOfxSgml text
  if rows.isEmpty then .error .emptyStatement
  else .ok (rows.filterMap (canonRow fn))

end Itau

namespace Nubank

/-- Rowwise model of the column pipeline in import_nubank_ofx: as for Itau
but without the REFNUM and CHECKNUM fallback, with source nubank, and with
only the empty key (never the single pipe) falling back to the composite. -/
def canonRow (fn : String) (r : RawTrn) : Option Row :=
  match coerceDate r.dtposted, parseFloat? r.trnamt with
  | some d, some a =>
    let desc := strTrim r.memo
    let e := strTrim r.fitid
    let key :=
      if e = "" then
        dateKeyStr d ++ "|" ++ desc ++ "|" ++ renderAmt a ++ "|nubank"
      else e
    some { date := d, description := desc, amount := a, source := "nubank",
           external_id := e, file_name := fn,
           ty := if a.num < 0 then "expense" else "income",
           tx_id := toString (hashKey key) }
  | _, _ => none

/-- Model of import_nubank_ofx. -/
def import_nubank_ofx (text fn : String) : Except ImportError (List Row) :=
  let rows := parseOfxSgml text
  if rows.isEmpty then .error .emptyStatement
  else .ok (rows.filterMap (canonRow fn))

end Nubank

/-! ## The persisted ledger file and append_to_ledger

The ledger written by an importer run has the eight columns of Row, every
cell in textual form. The two append_to_ledger functions differ in one
decisive detail: the Itau script reads ledger.csv back with
dtype tx_id string, while the Nubank script reads it with no dtype, so
read_csv infers an integer column whenever every stored tx_id cell is
numeric, which is exactly what the importers write. -/

structure CsvRow where
  date : String
  description : String
  amount : String
  source : String
  external_id : String
  file_name : String
  ty : String
  tx_id : String
deriving DecidableEq, Repr, Inhabited

/-- A cell value as pandas materializes it after read_csv type inference:
either a Python integer or a string. Values of different kinds never
compare equal, which is what drop_duplicates uses. -/
inductive PyVal where
  | i : Nat → PyVal
  | s : String → PyVal
deriving DecidableEq, Repr, Inhabited

def renderVal : PyVal → String
  | .i n => toString n
  | .s t => t

/-- In-memory ledger row inside the Nubank append_to_ledger, after
pd.read_csv without dtype and the to_datetime date reparse. -/
structure NbRow where
  date : Option Date
  description : String
  amount : Option Dec
  source : String
  external_id : String
  file_name : String
  ty : String
  tx_id : PyVal
deriving DecidableEq, Repr, Inhabited

/-- Model of pd.read_csv(csv_path) followed by the to_datetime reparse in
the Nubank append_to_ledger: the tx_id column is inferred as integer when
every cell is numeric text, else kept as strings (pandas infers dtypes per
column, not per cell). -/
def readLedgerNubank (rows : List CsvRow) : List NbRow :=
  let digits := rows.all (fun c => allDigitStr c.tx_id)
  rows.map (fun c =>
    { date := parseIsoDate c.date
      description := c.description
      amount := parseFloat? c.amount
      source := c.source
      external_id := c.external_id
      file_name := c.file_name
      ty := c.ty
      tx_id := if digits then .i (digitsToNat c.tx_id.toList) else .s c.tx_id })

/-- A freshly imported row entering pd.concat: its tx_id is the string the
importer produced. -/
def rowToNb (r : Row) : NbRow :=
  { date := some r.date, description := r.description, amount := some r.amount,
    source := r.source, external_id := r.external_id,
    file_name := r.file_name, ty := r.ty, tx_id := .s r.tx_id }

/-- Model of drop_duplicates(subset=tx_id, keep=first) on the concatenated
frame: keep a row when its tx_id value was not seen earlier. -/
def dedupNb (seen : List PyVal) : List NbRow → List NbRow
  | [] => []
  | r :: rs =>
    if seen.contains r.tx_id then dedupNb seen rs
    else r :: dedupNb (r.tx_id :: seen) rs

/-- Model of to_csv for one row: dates back to ISO text, floats to their
shortest repr, NaN and NaT to empty cells, integers to their digits. -/
def renderNb (r : NbRow) : CsvRow :=
  { date := match r.date with | some d => dateKeyStr d | none => ""
    description := r.description
    amount := match r.amount with | some a => renderAmt a | none => ""
    source := r.source
    external_id := r.external_id
    file_name := r.file_name
    ty := r.ty
    tx_id := renderVal r.tx_id }

namespace Nubank

/-- Model of append_to_ledger in import_nubank_ofx.py: read the existing
ledger.csv if present (no dtype), reparse dates, concatenate old rows before
new rows, drop duplicate tx_id keeping the first occurrence, write back. -/
def append_to_ledger (disk : Option (List CsvRow)) (new : List Row) :
    List CsvRow :=
  let combined :=
    match disk with
    | some csv => dedupNb [] (readLedgerNubank csv ++ new.map rowToNb)
    | none => dedupNb [] (new.map rowToNb)
  combined.map renderNb

/-- One full Nubank importer run against the current ledger file: the main
function imports the statement and appends the result; when the import
raises, append_to_ledger is never reached and the ledger file is untouched. -/
def runOnce (text fn : String) (disk : Option (List CsvRow)) :
    Except ImportError (List CsvRow) :=
  (import_nubank_ofx text fn).map (append_to_ledger disk)

end Nubank

/-- In-memory ledger row inside the Itau append_to_ledger, which reads the
ledger back with dtype tx_id string and external_id string, so tx_id stays
textual; the explicit astype(str) on the combined column is the identity
here. -/
structure ItRow where
  date : Option Date
  description : String
  amount : Option Dec
  source : String
  external_id : String
  file_name : String
  ty : String
  tx_id : String
deriving DecidableEq, Repr, Inhabited

def readLedgerItau (rows : List CsvRow) : List ItRow :=
  rows.map (fun c =>
    { date := parseIsoDate c.date
      description := c.description
      amount := parseFloat? c.amount
      source := c.source
      external_id := c.external_id
      file_name := c.file_name
      ty := c.ty
      tx_id := c.tx_id })

def rowToIt (r : Row) : ItRow :=
  { date := some r.date, description := r.description, amount := some r.amount,
    source := r.source, external_id := r.external_id,
    file_name := r.file_name, ty := r.ty, tx_id := r.tx_id }

def dedupIt (seen : List String) : List ItRow → List ItRow
  | [] => []
  | r :: rs =>
    if seen.contains r.tx_id then dedupIt seen rs
    else r :: dedupIt (r.tx_id :: seen) rs

def renderIt (r : ItRow) : CsvRow :=
  { date := match r.date with | some d => dateKeyStr d | none => ""
    description := r.description
    amount := match r.amount with | some a => renderAmt a | none => ""
    source := r.source
    external_id := r.external_id
    file_name := r.file_name
    ty := r.ty
    tx_id := r.tx_id }

namespace Itau

/-- Model of append_to_ledger in import_itau_ofx.py: as for Nubank except
that the ledger is read back with dtype tx_id string, so old and new tx_id
values compare as strings. -/
def append_to_ledger (disk : Option (List CsvRow)) (new : List Row) :
    List CsvRow :=
  let combined :=
    match disk with
    | some csv => dedupIt [] (readLedgerItau csv ++ new.map rowToIt)
    | none => dedupIt [] (new.map rowToIt)
  combined.map renderIt

/-- One full Itau importer run against the current ledger file. -/
def runOnce (text fn : String) (disk : Option (List CsvRow)) :
    Except ImportError (List CsvRow) :=
  (import_itau_ofx text fn).map (append_to_ledger disk)

end Itau


/-! ## The numpy argsort used by sort_values

load_rules sorts with DataFrame.sort_values("priority") and the pandas
default kind, which calls ndarray.argsort(kind="quicksort") on the int64
priority column. That is the numpy introsort: median-of-three quicksort on
the index array, switching to insertion sort when a segment has at most 16
entries (pointer difference at most SMALL_QUICKSORT = 15) and to heapsort
when the depth budget 2*msb(n) runs out. The functions below reproduce that
algorithm on an index array; fuel arguments bound loops that the original
drives with pointers, and the fuel is larger than any iteration count the
algorithm can reach for the inputs considered here. -/

/-- Base-two logarithm by halving, the npy_get_msb of the depth budget. -/
def log2F : Nat → Nat → Nat
  | 0, _ => 0
  | fuel + 1, n => if n ≥ 2 then log2F fuel (n / 2) + 1 else 0

/-- Swap of two positions, out-of-range indices left untouched. -/
def aswap (a : Array Nat) (i j : Nat) : Array Nat :=
  let x := a.getD i 0
  let y := a.getD j 0
  (a.setD i y).setD j x

/-- Insertion of an index into a sorted index list: the new index settles
after every entry whose value is less than or equal to its own, exactly
where the insertion-sort shift loop of the C code leaves it. -/
def ordInsert (v : Nat → Int) (x : Nat) : List Nat → List Nat
  | [] => [x]
  | y :: ys => if v x < v y then x :: y :: ys else y :: ordInsert v x ys

/-- Insertion argsort of a segment, processing entries left to right. -/
def insSortIdx (v : Nat → Int) (xs : List Nat) : List Nat :=
  xs.foldl (fun acc x => ordInsert v x acc) []

/-- The inclusive segment of an index array from l to r. -/
def extractSeg (a : Array Nat) (l r : Nat) : List Nat :=
  (a.toList.drop l).take (r + 1 - l)

/-- Writes a list back over the segment of an index array starting at l. -/
def setSeg (a : Array Nat) (l : Nat) (xs : List Nat) : Array Nat :=
  ((a.toList.take l) ++ xs ++ (a.toList.drop (l + xs.length))).toArray

/-- The do-increment-while scan of the partition loop: advance past entries
below the pivot; the pivot copy at the right sentinel position stops it. -/
def scanUp (v : Nat → Int) (a : Array Nat) (vp : Int) (k : Nat) :
    Nat → Nat
  | 0 => k + 1
  | fuel + 1 =>
    if v (a.getD (k + 1) 0) < vp then scanUp v a vp (k + 1) fuel else k + 1

/-- The do-decrement-while scan of the partition loop: move back past
entries above the pivot; the leftmost entry, at most the pivot after the
median-of-three exchange, stops it. -/
def scanDown (v : Nat → Int) (a : Array Nat) (vp : Int) (k : Nat) :
    Nat → Nat
  | 0 => k - 1
  | fuel + 1 =>
    if vp < v (a.getD (k - 1) 0) then scanDown v a vp (k - 1) fuel else k - 1

/-- The partition exchange loop: scan up, scan down, stop when the cursors
cross, else swap and continue. Returns the array and the left cursor. -/
def partLoop (v : Nat → Int) (vp : Int) :
    Nat → Array Nat → Nat → Nat → Array Nat × Nat
  | 0, a, i, _ => (a, i)
  | fuel + 1, a, i, j =>
    let i1 := scanUp v a vp i (a.size + 2)
    let j1 := scanDown v a vp j (a.size + 2)
    if i1 ≥ j1 then (a, i1)
    else partLoop v vp fuel (aswap a i1 j1) i1 j1

/-- Reads position k of the one-indexed heap living on the segment that
starts at l. -/
def hGet (a : Array Nat) (l k : Nat) : Nat := a.getD (l + k - 1) 0

def hSet (a : Array Nat) (l k : Nat) (x : Nat) : Array Nat :=
  a.setD (l + k - 1) x

/-- The sift loop shared by both heapsort phases: walk the saved entry tmp
down the heap of size n, then store it at the hole. -/
def heapSift (v : Nat → Int) (l n tmp : Nat) :
    Nat → Array Nat → Nat → Nat → Array Nat
  | 0, a, i, _ => hSet a l i tmp
  | fuel + 1, a, i, j =>
    if j ≤ n then
      let j1 :=
        if j < n ∧ v (hGet a l j) < v (hGet a l (j + 1)) then j + 1 else j
      if v tmp < v (hGet a l j1) then
        heapSift v l n tmp fuel (hSet a l i (hGet a l j1)) j1 (j1 * 2)
      else hSet a l i tmp
    else hSet a l i tmp

/-- The argsort heapsort of numpy on the inclusive segment from l to r:
heapify from the middle down, then repeatedly move the root behind the
shrinking heap. Reached only when the introsort depth budget is exhausted. -/
def aheapsortSeg (v : Nat → Int) (a : Array Nat) (l r : Nat) : Array Nat :=
  let n := r + 1 - l
  let built := ((List.range (n / 2)).reverse.map (· + 1)).foldl
    (fun b k => heapSift v l n (hGet b l k) (n + 2) b k (2 * k)) a
  ((List.range (n - 1)).reverse.map (· + 2)).foldl
    (fun b m =>
      let tmp := hGet b l m
      let b1 := hSet b l m (hGet b l 1)
      heapSift v l (m - 1) tmp (n + 2) b1 1 2)
    built

/-- The introsort driver: on a segment longer than 16 either heapsort (once
the depth budget, tested before its decrement, is negative) or a
median-of-three partition, pushing the larger side; on a short segment,
insertion sort, then pop the next segment from the stack. -/
def aqLoop (v : Nat → Int) :
    Nat → Array Nat → Nat → Nat → Int → List (Nat × Nat) → Array Nat
  | 0, a, _, _, _, _ => a
  | fuel + 1, a, l, r, depth, stack =>
    if 15 < r - l then
      if depth < 0 then
        let a1 := aheapsortSeg v a l r
        match stack with
        | [] => a1
        | (l2, r2) :: rest => aqLoop v fuel a1 l2 r2 (depth - 1) rest
      else
        let pm := l + (r - l) / 2
        let a1 := if v (a.getD pm 0) < v (a.getD l 0) then aswap a pm l else a
        let a2 :=
          if v (a1.getD r 0) < v (a1.getD pm 0) then aswap a1 r pm else a1
        let a3 :=
          if v (a2.getD pm 0) < v (a2.getD l 0) then aswap a2 pm l else a2
        let vp := v (a3.getD pm 0)
        let a4 := aswap a3 pm (r - 1)
        let res := partLoop v vp (r - l + 2) a4 l (r - 1)
        let a6 := aswap res.1 res.2 (r - 1)
        if res.2 - l < r - res.2 then
          aqLoop v fuel a6 l (res.2 - 1) (depth - 1) ((res.2 + 1, r) :: stack)
        else
          aqLoop v fuel a6 (res.2 + 1) r (depth - 1) ((l, res.2 - 1) :: stack)
    else
      let a1 := setSeg a l (insSortIdx v (extractSeg a l r))
      match stack with
      | [] => a1
      | (l2, r2) :: rest => aqLoop v fuel a1 l2 r2 depth rest

/-- Model of ndarray.argsort(kind="quicksort") on n values given by v: the
permutation of the range that sorts v, computed by the numpy introsort. -/
def aquicksortArg (v : Nat → Int) (n : Nat) : List Nat :=
  if n == 0 then []
  else
    (aqLoop v (4 * n + 8) (Array.range n) 0 (n - 1)
      ((2 * log2F n n : Nat) : Int) []).toList

/-! ## Rule compiler and rule applier -/

/-- One raw row of rules.csv with columns pattern, priority, category,
subcategory, type_hint. A none field is a blank cell, which read_csv turns
into NaN; priority is none when the cell is missing or non-numeric, since
pd.to_numeric with errors coerce maps exactly those to NaN before the 9999
fill. -/
structure RawRule where
  pattern : Option String
  priority : Option Int
  category : Option String
  subcategory : Option String
  type_hint : Option String
deriving DecidableEq, Repr, Inhabited

/-- Model of str(x) on a cell: a NaN cell prints as the three letters nan,
which is the behaviour that defeats the blank-cell checks downstream. -/
def pyStrCell : Option String → String
  | none => "nan"
  | some s => s

/-- Normalized priority: pd.to_numeric(errors=coerce).fillna(9999)
followed by astype(int). -/
def normPriority (r : RawRule) : Int := r.priority.getD 9999

/-- Model of re.compile(p, re.I).search(x) for the metacharacter-free
patterns of the rule table: case-insensitive substring search, reusing the
scanner of the leftmost case-insensitive occurrence. -/
def ciSearch (pat s : String) : Bool :=
  (findCI pat.toList s.toList).isSome

/-- One compiled rule: the row of the sorted rules frame together with its
regex column. -/
structure CompiledRule where
  pattern : String
  priority : Int
  category : Option String
  subcategory : Option String
  type_hint : Option String
  rx : String → Bool

def compileRule (r : RawRule) : CompiledRule :=
  { pattern := pyStrCell r.pattern
    priority := normPriority r
    category := r.category
    subcategory := r.subcategory
    type_hint := r.type_hint
    rx := ciSearch (pyStrCell r.pattern) }

/-- The argsort permutation that sort_values applies to the rule table. -/
def rulesOrder (tbl : List RawRule) : List Nat :=
  aquicksortArg (fun i => normPriority (tbl.getD i default)) tbl.length

/-- Model of load_rules: normalize priorities, sort the table by the numpy
argsort of the priority column, compile each pattern case-insensitively. -/
def load_rules (tbl : List RawRule) : List CompiledRule :=
  (rulesOrder tbl).map (fun i => compileRule (tbl.getD i default))

/-- One ledger row as apply_rules sees it after pd.read_csv: the eight
importer columns plus category and subcategory, either of which is none
when the cell is NaN. -/
structure LTx where
  date : Option Date
  description : String
  amount : Option Dec
  source : String
  external_id : String
  file_name : String
  ty : String
  tx_id : String
  category : Option String
  subcategory : Option String
deriving DecidableEq, Repr, Inhabited

/-- The mask category.isin(Uncategorized, empty, None) or category.isna():
true on NaN, on the empty string and on the default marker. -/
def isDefaultCat : Option String → Bool
  | none => true
  | some s => s == "Uncategorized" || s == ""

/-- Effect of one rule on one row inside the loop of apply_rules: the row
matches when the compiled pattern searches its description and its category
is still default; a match assigns the stripped rule category, the stripped
rule subcategory or the category when that strip is empty, and overwrites
the type when the stripped lower-cased hint is one of the four types. -/
def ruleRow (r : CompiledRule) (t : LTx) : LTx :=
  let cat := strTrim (pyStrCell r.category)
  let sub := strTrim (pyStrCell r.subcategory)
  let hint := strLower (strTrim (pyStrCell r.type_hint))
  let m := r.rx t.description && isDefaultCat t.category
  let t1 :=
    if m then
      { t with category := some cat,
               subcategory := some (if sub = "" then cat else sub) }
    else t
  if (hint == "expense" || hint == "income" || hint == "transfer"
      || hint == "investment") && m then
    { t1 with ty := hint }
  else t1

/-- One iteration of the rule loop over the whole frame: a rule whose
stripped category is empty is skipped by the continue statement. -/
def rulePass (r : CompiledRule) (df : List LTx) : List LTx :=
  if strTrim (pyStrCell r.category) = "" then df else df.map (ruleRow r)

/-- Pointwise form of one iteration, used to state row-level facts. -/
def passRow (r : CompiledRule) (t : LTx) : LTx :=
  if strTrim (pyStrCell r.category) = "" then t else ruleRow r t

/-- Model of apply_rules. The two booleans state whether the category and
subcategory columns exist in the frame read from ledger.csv; when one is
absent the function creates it filled with the default marker, mirroring
the two column checks at the top. The loop then applies each rule of the
sorted table in order. The df.copy() of the original is reflected in this
being a pure function of its input. -/
def apply_rules (catCol subcatCol : Bool) (df : List LTx)
    (rules : List CompiledRule) : List LTx :=
  let df1 :=
    if catCol then df
    else df.map (fun t => { t with category := some "Uncategorized" })
  let df2 :=
    if subcatCol then df1
    else df1.map (fun t => { t with subcategory := some "Uncategorized" })
  rules.foldl (fun acc r => rulePass r acc) df2


/-- Row initialization performed before the rule loop: fills a missing
category or subcategory column with the default marker. -/
def initRow (catCol subcatCol : Bool) (t : LTx) : LTx :=
  let t1 := if catCol then t else { t with category := some "Uncategorized" }
  if subcatCol then t1 else { t1 with subcategory := some "Uncategorized" }

/-- The seven columns the rule applier never writes. -/
def coreFields (t : LTx) :
    Option Date × String × Option Dec × String × String × String × String :=
  (t.date, t.description, t.amount, t.source, t.external_id, t.file_name,
    t.tx_id)

/-! ## Lemmas about the rule applier -/

theorem rulePass_length (r : CompiledRule) (df : List LTx) :
    (rulePass r df).length = df.length := by
  unfold rulePass; split <;> simp

theorem foldl_rulePass_length (rules : List CompiledRule) (df : List LTx) :
    (rules.foldl (fun acc r => rulePass r acc) df).length = df.length := by
  induction rules generalizing df with
  | nil => rfl
  | cons r rs ih =>
    rw [List.foldl_cons, ih, rulePass_length]

theorem apply_rules_length (cc sc : Bool) (df : List LTx)
    (rules : List CompiledRule) :
    (apply_rules cc sc df rules).length = df.length := by
  unfold apply_rules
  cases cc <;> cases sc <;> simp [foldl_rulePass_length]

theorem getD_map_lt (f : LTx → LTx) (df : List LTx) (i : Nat)
    (hi : i < df.length) :
    (df.map f).getD i default = f (df.getD i default) := by
  rw [List.getD_eq_getElem _ _ (by simpa using hi), List.getElem_map,
    List.getD_eq_getElem _ _ hi]

theorem rulePass_getD (r : CompiledRule) (df : List LTx) (i : Nat)
    (hi : i < df.length) :
    (rulePass r df).getD i default = passRow r (df.getD i default) := by
  unfold rulePass passRow
  split
  · rfl
  · exact getD_map_lt (ruleRow r) df i hi

theorem foldl_rulePass_getD (rules : List CompiledRule) (df : List LTx)
    (i : Nat) (hi : i < df.length) :
    (rules.foldl (fun acc r => rulePass r acc) df).getD i default
      = rules.foldl (fun t r => passRow r t) (df.getD i default) := by
  induction rules generalizing df with
  | nil => rfl
  | cons r rs ih =>
    rw [List.foldl_cons, List.foldl_cons,
      ih (rulePass r df) (by rw [rulePass_length]; exact hi),
      rulePass_getD r df i hi]

/-- Pointwise characterization of apply_rules: row i of the output is the
rule-loop fold applied to row i of the input after column initialization. -/
theorem apply_rules_getD (cc sc : Bool) (df : List LTx)
    (rules : List CompiledRule) (i : Nat) (hi : i < df.length) :
    (apply_rules cc sc df rules).getD i default
      = rules.foldl (fun t r => passRow r t)
          (initRow cc sc (df.getD i default)) := by
  unfold apply_rules initRow
  cases cc <;> cases sc <;>
    simp only [Bool.false_eq_true, if_true, if_false] <;>
    rw [foldl_rulePass_getD _ _ i (by simp [hi])] <;>
    simp only [getD_map_lt _ df i hi, getD_map_lt _ (df.map _) i (by simpa using hi)]

theorem ruleRow_nondefault (r : CompiledRule) (t : LTx)
    (h : isDefaultCat t.category = false) : ruleRow r t = t := by
  unfold ruleRow
  simp [h]

theorem passRow_nondefault (r : CompiledRule) (t : LTx)
    (h : isDefaultCat t.category = false) : passRow r t = t := by
  unfold passRow
  split
  · rfl
  · exact ruleRow_nondefault r t h

theorem foldl_passRow_nondefault (rules : List CompiledRule) (t : LTx)
    (h : isDefaultCat t.category = false) :
    rules.foldl (fun a r => passRow r a) t = t := by
  induction rules with
  | nil => rfl
  | cons r rs ih =>
    rw [List.foldl_cons, passRow_nondefault r t h]
    exact ih

theorem ruleRow_coreFields (r : CompiledRule) (t : LTx) :
    coreFields (ruleRow r t) = coreFields t := by
  unfold ruleRow coreFields
  cases hm : (r.rx t.description && isDefaultCat t.category) <;>
    simp only [hm, Bool.and_false, Bool.and_true, if_false, if_true,
      Bool.false_eq_true, reduceIte] <;> split <;> rfl

theorem passRow_coreFields (r : CompiledRule) (t : LTx) :
    coreFields (passRow r t) = coreFields t := by
  unfold passRow
  split
  · rfl
  · exact ruleRow_coreFields r t

theorem foldl_passRow_coreFields (rules : List CompiledRule) (t : LTx) :
    coreFields (rules.foldl (fun a r => passRow r a) t) = coreFields t := by
  induction rules generalizing t with
  | nil => rfl
  | cons r rs ih =>
    rw [List.foldl_cons, ih (passRow r t), passRow_coreFields]

theorem initRow_coreFields (cc sc : Bool) (t : LTx) :
    coreFields (initRow cc sc t) = coreFields t := by
  unfold initRow coreFields
  cases cc <;> cases sc <;> rfl

/-- A matching rule with nonempty stripped category writes exactly that
stripped category. -/
theorem ruleRow_match_category (r : CompiledRule) (t : LTx)
    (hm : r.rx t.description = true) (hd : isDefaultCat t.category = true) :
    (ruleRow r t).category = some (strTrim (pyStrCell r.category)) := by
  unfold ruleRow
  simp only [hm, hd, Bool.and_self, if_true]
  split <;> rfl

theorem ruleRow_match_subcategory (r : CompiledRule) (t : LTx)
    (hm : r.rx t.description = true) (hd : isDefaultCat t.category = true) :
    (ruleRow r t).subcategory
      = some (if strTrim (pyStrCell r.subcategory) = ""
          then strTrim (pyStrCell r.category)
          else strTrim (pyStrCell r.subcategory)) := by
  unfold ruleRow
  simp only [hm, hd, Bool.and_self, if_true]
  split <;> rfl

/-! ## Stability of the insertion-sort path of the argsort

For at most 16 rules the introsort never partitions: it insertion-sorts the
whole index range in one pass. Insertion argsort of an increasing index
list is sorted lexicographically by value and then by original index, which
is exactly stability. -/

/-- Strict lexicographic order on indices: smaller value, or equal value
and smaller original position. -/
def idxLex (v : Nat → Int) (a b : Nat) : Prop :=
  v a < v b ∨ (v a = v b ∧ a < b)

theorem mem_ordInsert (v : Nat → Int) (x : Nat) (l : List Nat) (y : Nat) :
    y ∈ ordInsert v x l ↔ y = x ∨ y ∈ l := by
  induction l with
  | nil => simp [ordInsert]
  | cons z zs ih =>
    unfold ordInsert
    split
    · simp [List.mem_cons]
    · simp only [List.mem_cons, ih]
      tauto

theorem pairwise_ordInsert (v : Nat → Int) (x : Nat) (l : List Nat)
    (hl : l.Pairwise (idxLex v)) (hx : ∀ y ∈ l, y < x) :
    (ordInsert v x l).Pairwise (idxLex v) := by
  induction l with
  | nil => simp [ordInsert]
  | cons z zs ih =>
    rw [List.pairwise_cons] at hl
    obtain ⟨hz, hzs⟩ := hl
    unfold ordInsert
    split
    · rename_i hlt
      refine List.Pairwise.cons ?_ (List.Pairwise.cons hz hzs)
      intro y hy
      rcases List.mem_cons.mp hy with rfl | hy2
      · exact Or.inl hlt
      · rcases hz y hy2 with h1 | ⟨h1, _⟩
        · exact Or.inl (lt_trans hlt h1)
        · exact Or.inl (h1 ▸ hlt)
    · rename_i hnlt
      have hzx : v z ≤ v x := not_lt.mp hnlt
      refine List.Pairwise.cons ?_
        (ih hzs (fun y hy => hx y (List.mem_cons_of_mem z hy)))
      intro y hy
      rcases (mem_ordInsert v x zs y).mp hy with rfl | hy2
      · rcases lt_or_eq_of_le hzx with h | h
        · exact Or.inl h
        · exact Or.inr ⟨h, hx z (List.mem_cons_self z zs)⟩
      · exact hz y hy2

theorem pairwise_insSortIdx_aux (v : Nat → Int) (xs acc : List Nat)
    (hacc : acc.Pairwise (idxLex v))
    (hcross : ∀ a ∈ acc, ∀ b ∈ xs, a < b)
    (hxs : xs.Pairwise (· < ·)) :
    (xs.foldl (fun a x => ordInsert v x a) acc).Pairwise (idxLex v) := by
  induction xs generalizing acc with
  | nil => exact hacc
  | cons x rest ih =>
    rw [List.pairwise_cons] at hxs
    rw [List.foldl_cons]
    apply ih
    · exact pairwise_ordInsert v x acc hacc
        (fun y hy => hcross y hy x (List.mem_cons_self x rest))
    · intro a ha b hb
      rcases (mem_ordInsert v x acc a).mp ha with rfl | ha2
      · exact hxs.1 b hb
      · exact hcross a ha2 b (List.mem_cons_of_mem x hb)
    · exact hxs.2

theorem pairwise_insSortIdx (v : Nat → Int) (xs : List Nat)
    (hxs : xs.Pairwise (· < ·)) :
    (insSortIdx v xs).Pairwise (idxLex v) :=
  pairwise_insSortIdx_aux v xs [] (List.Pairwise.nil) (by simp) hxs

theorem ordInsert_length (v : Nat → Int) (x : Nat) (l : List Nat) :
    (ordInsert v x l).length = l.length + 1 := by
  induction l with
  | nil => rfl
  | cons z zs ih =>
    unfold ordInsert
    split
    · simp
    · simp [ih]

theorem insSortIdx_length_aux (v : Nat → Int) (xs acc : List Nat) :
    (xs.foldl (fun a x => ordInsert v x a) acc).length
      = acc.length + xs.length := by
  induction xs generalizing acc with
  | nil => simp
  | cons x rest ih =>
    rw [List.foldl_cons, ih, ordInsert_length]
    simp [Nat.add_comm, Nat.add_assoc, Nat.add_left_comm]

theorem insSortIdx_length (v : Nat → Int) (xs : List Nat) :
    (insSortIdx v xs).length = xs.length := by
  unfold insSortIdx
  rw [insSortIdx_length_aux]
  simp

/-- On at most 16 values the numpy introsort is exactly one insertion-sort
pass over the identity index range: the driver loop never enters the
partition branch and pops an empty stack. -/
theorem aquicksortArg_small (v : Nat → Int) (n : Nat) (hn : n ≤ 16) :
    aquicksortArg v n = insSortIdx v (List.range n) := by
  unfold aquicksortArg
  by_cases h0 : n = 0
  · subst h0
    simp [insSortIdx]
  · rw [if_neg (by simpa using h0)]
    rw [show 4 * n + 8 = (4 * n + 7) + 1 from rfl]
    rw [aqLoop]
    rw [if_neg (by omega : ¬ 15 < n - 1 - 0)]
    have hext : extractSeg (Array.range n) 0 (n - 1) = List.range n := by
      unfold extractSeg
      rw [Array.toList_range, List.drop_zero]
      apply List.take_of_length_le
      simp
      omega
    rw [hext]
    unfold setSeg
    simp [Array.toList_range, insSortIdx_length,
      List.drop_eq_nil_of_le, Array.toList_toArray]

/-! ## Identity derivation facts -/

theorem hashKey_lt (s : String) : hashKey s < 2 ^ 64 := by
  unfold hashKey
  have aux : ∀ (l : List Char) (h : Nat), h < 2 ^ 64 →
      l.foldl (fun h c => ((h ^^^ c.toNat) * 1099511628211) % 2 ^ 64) h
        < 2 ^ 64 := by
    intro l
    induction l with
    | nil => intro h hh; exact hh
    | cons c cs ih =>
      intro h _
      rw [List.foldl_cons]
      exact ih _ (Nat.mod_lt _ (by norm_num))
  exact aux _ _ (by norm_num)

/-- The composite fallback key of the Itau importer, read off the canonical
row: date, description, amount and the source tag, pipe-separated. -/
def compositeItau (row : Row) : String :=
  dateKeyStr row.date ++ "|" ++ row.description ++ "|"
    ++ renderAmt row.amount ++ "|itau"

/-- The composite fallback key of the Nubank importer. -/
def compositeNubank (row : Row) : String :=
  dateKeyStr row.date ++ "|" ++ row.description ++ "|"
    ++ renderAmt row.amount ++ "|nubank"

/-- Modelled from the spec: the amended ordered key-material fallback for
the Itau source. The primary external reference is used when non-empty,
except that the degenerate single pipe falls through to the composite
directly; with an empty primary, the secondary concatenation of reference
and check numbers is used unless degenerate (empty or a single pipe), else
the composite. -/
def specKeyItau (fitid refnum checknum composite : String) : String :=
  if fitid ≠ "" then (if fitid = "|" then composite else fitid)
  else if refnum ++ "|" ++ checknum ≠ "" ∧ refnum ++ "|" ++ checknum ≠ "|"
    then refnum ++ "|" ++ checknum
  else composite

/-- Modelled from the spec: the key-material fallback for the Nubank
source, which has no secondary references. -/
def specKeyNubank (fitid composite : String) : String :=
  if fitid ≠ "" then fitid else composite

/-- The key expression of the Itau importer equals the spec ladder. -/
theorem itauKey_eq (fitid refnum checknum composite : String) :
    (if (if fitid = "" then refnum ++ "|" ++ checknum else fitid) = ""
        ∨ (if fitid = "" then refnum ++ "|" ++ checknum else fitid) = "|"
      then composite
      else (if fitid = "" then refnum ++ "|" ++ checknum else fitid))
    = specKeyItau fitid refnum checknum composite := by
  unfold specKeyItau
  by_cases h1 : fitid = ""
  · by_cases h3 : refnum ++ "|" ++ checknum = ""
      <;> by_cases h4 : refnum ++ "|" ++ checknum = "|"
      <;> simp [h1, h3, h4]
  · by_cases h2 : fitid = "|" <;> simp [h1, h2]

/-- C4 (amended): for every extracted block that canonicalizes, the tx_id
is the 64-bit hash, rendered in decimal, of the key material chosen by the
ordered fallback: for Itau the primary reference when non-empty and not the
degenerate single pipe, else the secondary concatenation when not
degenerate, else the composite; for Nubank the primary reference when
non-empty, else the composite. -/
theorem C4_key_material (r : RawTrn) (fn : String) :
    (∀ row, Itau.canonRow fn r = some row →
      row.tx_id = toString (hashKey (specKeyItau (strTrim r.fitid)
          (strTrim r.refnum) (strTrim r.checknum) (compositeItau row)))
      ∧ hashKey (specKeyItau (strTrim r.fitid) (strTrim r.refnum)
          (strTrim r.checknum) (compositeItau row)) < 2 ^ 64)
    ∧ (∀ row, Nubank.canonRow fn r = some row →
      row.tx_id = toString (hashKey (specKeyNubank (strTrim r.fitid)
          (compositeNubank row)))
      ∧ hashKey (specKeyNubank (strTrim r.fitid) (compositeNubank row))
          < 2 ^ 64) := by
  constructor
  · intro row hrow
    unfold Itau.canonRow at hrow
    cases hd : coerceDate r.dtposted with
    | none => rw [hd] at hrow; exact absurd hrow (by simp)
    | some d =>
      cases ha : parseFloat? r.trnamt with
      | none => rw [hd, ha] at hrow; exact absurd hrow (by simp)
      | some a =>
        rw [hd, ha] at hrow
        simp only [Option.some.injEq] at hrow
        subst hrow
        refine ⟨?_, hashKey_lt _⟩
        simp only [compositeItau]
        rw [← itauKey_eq]
  · intro row hrow
    unfold Nubank.canonRow at hrow
    cases hd : coerceDate r.dtposted with
    | none => rw [hd] at hrow; exact absurd hrow (by simp)
    | some d =>
      cases ha : parseFloat? r.trnamt with
      | none => rw [hd, ha] at hrow; exact absurd hrow (by simp)
      | some a =>
        rw [hd, ha] at hrow
        simp only [Option.some.injEq] at hrow
        subst hrow
        refine ⟨?_, hashKey_lt _⟩
        simp only [compositeNubank, specKeyNubank]
        by_cases he : strTrim r.fitid = "" <;> simp [he]

/-- An Itau block whose primary external reference is the single pipe. -/
def c4cexRaw : RawTrn :=
  { dtposted := "20240115", trnamt := "-45.90", memo := "PIX",
    fitid := "|", checknum := "", refnum := "" }

/-- The canonical row the Itau importer produces for that block. -/
def c4cexRow : Row :=
  { date := ⟨2024, 1, 15⟩, description := "PIX", amount := ⟨-4590, 2⟩,
    source := "itau", external_id := "|", file_name := "stmt.ofx",
    ty := "expense", tx_id := "17620380643286854351" }

/-- C4 counterexample: a block with the non-empty primary reference equal
to a single pipe. The frozen claim chooses the primary reference as key
material whenever it is non-empty, hence demands the hash of the pipe; the
Itau importer instead treats this key as degenerate and hashes the
composite. -/
theorem C4_counterexample :
    Itau.canonRow "stmt.ofx" c4cexRaw = some c4cexRow
    ∧ strTrim c4cexRaw.fitid = "|"
    ∧ strTrim c4cexRaw.fitid ≠ ""
    ∧ c4cexRow.tx_id ≠ toString (hashKey "|")
    ∧ c4cexRow.tx_id = toString (hashKey "2024-01-15|PIX|-45.9|itau") := by
  decide

/-- The scenario-4 block: empty primary reference, secondary references R1
and C1. -/
def c4witRaw : RawTrn :=
  { dtposted := "20240115", trnamt := "-45.90", memo := "UBER TRIP",
    fitid := "", checknum := "C1", refnum := "R1" }

def c4witRow : Row :=
  { date := ⟨2024, 1, 15⟩, description := "UBER TRIP",
    amount := ⟨-4590, 2⟩, source := "itau", external_id := "R1|C1",
    file_name := "stmt.ofx", ty := "expense",
    tx_id := "7214928077706808872" }

/-- C4 witness: the amended key ladder evaluated on the scenario-4 block
falls back to the secondary concatenation. -/
theorem C4_key_material_witness :
    Itau.canonRow "stmt.ofx" c4witRaw = some c4witRow
    ∧ c4witRow.tx_id = toString (hashKey "R1|C1") := by
  constructor
  · decide
  · have h := (C4_key_material c4witRaw "stmt.ofx").1 c4witRow (by decide)
    rw [h.1]
    decide

/-! ## C5: the empty-statement contract -/

/-- C5: when a statement text contains zero transaction blocks, both
importers fail with the empty-statement error and both full runs fail
without producing a ledger, so the persisted ledger is untouched;
conversely, when at least one block is found, neither importer raises this
error. -/
theorem C5_empty_statement (text fn : String) (disk : Option (List CsvRow)) :
    (parseOfxSgml text = [] →
      Itau.import_itau_ofx text fn = .error .emptyStatement
      ∧ Nubank.import_nubank_ofx text fn = .error .emptyStatement
      ∧ Itau.runOnce text fn disk = .error .emptyStatement
      ∧ Nubank.runOnce text fn disk = .error .emptyStatement)
    ∧ (parseOfxSgml text ≠ [] →
      (∃ out, Itau.import_itau_ofx text fn = .ok out)
      ∧ (∃ out, Nubank.import_nubank_ofx text fn = .ok out)) := by
  constructor
  · intro h
    have h1 : Itau.import_itau_ofx text fn = .error .emptyStatement := by
      unfold Itau.import_itau_ofx
      simp [h]
    have h2 : Nubank.import_nubank_ofx text fn = .error .emptyStatement := by
      unfold Nubank.import_nubank_ofx
      simp [h]
    refine ⟨h1, h2, ?_, ?_⟩
    · unfold Itau.runOnce
      rw [h1]
      rfl
    · unfold Nubank.runOnce
      rw [h2]
      rfl
  · intro h
    constructor
    · refine ⟨(parseOfxSgml text).filterMap (Itau.canonRow fn), ?_⟩
      unfold Itau.import_itau_ofx
      simp [List.isEmpty_iff, h]
    · refine ⟨(parseOfxSgml text).filterMap (Nubank.canonRow fn), ?_⟩
      unfold Nubank.import_nubank_ofx
      simp [List.isEmpty_iff, h]

/-- C5 witness: a concrete blockless text aborts both pipelines, and a
concrete one-block statement imports without the empty-statement error. -/
theorem C5_empty_statement_witness :
    Itau.runOnce "<OFX>no transactions</OFX>" "a.ofx" none
      = .error .emptyStatement
    ∧ Nubank.runOnce "<OFX>no transactions</OFX>" "a.ofx" none
      = .error .emptyStatement
    ∧ (∃ out, Nubank.import_nubank_ofx
        "<OFX><STMTTRN><DTPOSTED>20240115<TRNAMT>-45.90<MEMO>UBER TRIP<FITID>ABC123</STMTTRN></OFX>"
        "nubank.ofx" = .ok out) := by
  refine ⟨?_, ?_, ?_⟩
  · exact ((C5_empty_statement "<OFX>no transactions</OFX>" "a.ofx" none).1
      (by decide)).2.2.1
  · exact ((C5_empty_statement "<OFX>no transactions</OFX>" "a.ofx" none).1
      (by decide)).2.2.2
  · exact ((C5_empty_statement
      "<OFX><STMTTRN><DTPOSTED>20240115<TRNAMT>-45.90<MEMO>UBER TRIP<FITID>ABC123</STMTTRN></OFX>"
      "nubank.ofx" none).2 (by decide)).2

/-! ## C3: one-shot categorization -/

/-- C3: apply_rules changes nothing on a transaction whose category is
already outside the default or empty state: whatever the rule set, its
priorities, patterns and positions, the row is returned unchanged. The two
true flags state that the category and subcategory columns are present, as
they are in any ledger that contains a categorized transaction. -/
theorem C3_one_shot (df : List LTx) (rules : List CompiledRule) (i : Nat)
    (c : String) (hi : i < df.length)
    (hc : (df.getD i default).category = some c)
    (h1 : c ≠ "Uncategorized") (h2 : c ≠ "") :
    (apply_rules true true df rules).getD i default = df.getD i default := by
  rw [apply_rules_getD true true df rules i hi]
  have hinit : initRow true true (df.getD i default) = df.getD i default := rfl
  rw [hinit]
  apply foldl_passRow_nondefault
  rw [hc]
  simp [isDefaultCat, h1, h2]

def c3tx : LTx :=
  { date := some ⟨2024, 1, 15⟩, description := "UBER TRIP 123",
    amount := some ⟨-4590, 2⟩, source := "nubank", external_id := "A1",
    file_name := "n.ofx", ty := "expense", tx_id := "11",
    category := some "Food", subcategory := some "Food" }

def c3rule : RawRule :=
  { pattern := some "UBER", priority := some 1,
    category := some "Transport", subcategory := none, type_hint := none }

/-- C3 witness: a matching higher-priority rule leaves an already
categorized transaction untouched. -/
theorem C3_one_shot_witness :
    (apply_rules true true [c3tx] (load_rules [c3rule])).getD 0 default
      = [c3tx].getD 0 default :=
  C3_one_shot [c3tx] (load_rules [c3rule]) 0 "Food" (by decide) (by decide)
    (by decide) (by decide)

/-! ## C10: the frame of the rule applier -/

/-- C10: apply_rules returns a frame with the same number of rows, in the
same order, and on every row the columns other than category, subcategory
and type are unchanged; the input frame itself is untouched, which the
model renders by apply_rules being a pure function of its input (the
script copies the frame before mutating). -/
theorem C10_frame (cc sc : Bool) (df : List LTx)
    (rules : List CompiledRule) (i : Nat) (hi : i < df.length) :
    (apply_rules cc sc df rules).length = df.length
    ∧ ((apply_rules cc sc df rules).getD i default).date
        = (df.getD i default).date
    ∧ ((apply_rules cc sc df rules).getD i default).description
        = (df.getD i default).description
    ∧ ((apply_rules cc sc df rules).getD i default).amount
        = (df.getD i default).amount
    ∧ ((apply_rules cc sc df rules).getD i default).source
        = (df.getD i default).source
    ∧ ((apply_rules cc sc df rules).getD i default).external_id
        = (df.getD i default).external_id
    ∧ ((apply_rules cc sc df rules).getD i default).file_name
        = (df.getD i default).file_name
    ∧ ((apply_rules cc sc df rules).getD i default).tx_id
        = (df.getD i default).tx_id := by
  have hcore : coreFields ((apply_rules cc sc df rules).getD i default)
      = coreFields (df.getD i default) := by
    rw [apply_rules_getD cc sc df rules i hi, foldl_passRow_coreFields,
      initRow_coreFields]
  refine ⟨apply_rules_length cc sc df rules, ?_, ?_, ?_, ?_, ?_, ?_, ?_⟩
  · exact congrArg (fun p => p.1) hcore
  · exact congrArg (fun p => p.2.1) hcore
  · exact congrArg (fun p => p.2.2.1) hcore
  · exact congrArg (fun p => p.2.2.2.1) hcore
  · exact congrArg (fun p => p.2.2.2.2.1) hcore
  · exact congrArg (fun p => p.2.2.2.2.2.1) hcore
  · exact congrArg (fun p => p.2.2.2.2.2.2) hcore

def c10tx : LTx :=
  { date := some ⟨2024, 1, 15⟩, description := "UBER TRIP 123",
    amount := some ⟨-4590, 2⟩, source := "nubank", external_id := "A1",
    file_name := "n.ofx", ty := "expense", tx_id := "11",
    category := none, subcategory := none }

/-- C10 witness: the frame facts instantiated on a one-row ledger and a
one-rule table that matches and recategorizes the row. -/
theorem C10_frame_witness :
    (apply_rules true true [c10tx] (load_rules [c3rule])).length = 1
    ∧ ((apply_rules true true [c10tx] (load_rules [c3rule])).getD 0
        default).tx_id = "11" := by
  have h := C10_frame true true [c10tx] (load_rules [c3rule]) 0 (by decide)
  exact ⟨h.1, h.2.2.2.2.2.2.2⟩

/-! ## C6: priority ordering between two rules -/

theorem load_rules_pair (a b : RawRule)
    (hab : normPriority a ≤ normPriority b) :
    load_rules [a, b] = [compileRule a, compileRule b] := by
  unfold load_rules rulesOrder
  rw [aquicksortArg_small _ _ (by simp)]
  rw [show List.range ([a, b] : List RawRule).length = [0, 1] from rfl]
  unfold insSortIdx
  simp only [List.foldl_cons, List.foldl_nil, ordInsert]
  rw [if_neg (by simpa using not_lt.mpr hab)]
  simp

theorem load_rules_pair_swap (a b : RawRule)
    (hba : normPriority b < normPriority a) :
    load_rules [a, b] = [compileRule b, compileRule a] := by
  unfold load_rules rulesOrder
  rw [aquicksortArg_small _ _ (by simp)]
  rw [show List.range ([a, b] : List RawRule).length = [0, 1] from rfl]
  unfold insSortIdx
  simp only [List.foldl_cons, List.foldl_nil, ordInsert]
  rw [if_pos (by simpa using hba)]
  simp

/-- C6 (amended): with a rule table holding a priority-1 and a priority-2
rule, in either file order, both with nonempty stripped categories and both
matching the description of a still-default transaction, apply_rules gives
the row exactly the effects of the priority-1 rule alone, and in particular
its category, provided that category is not the literal default marker. A
priority-1 rule whose category strips to Uncategorized leaves the row
eligible and the priority-2 rule is applied after it; see the recorded
counterexample. -/
theorem C6_priority (r1 r2 : RawRule) (tbl : List RawRule) (df : List LTx)
    (i : Nat) (s1 : String)
    (htbl : tbl = [r1, r2] ∨ tbl = [r2, r1])
    (hp1 : r1.priority = some 1) (hp2 : r2.priority = some 2)
    (hc1 : r1.category = some s1) (hs1 : strTrim s1 ≠ "")
    (hs1u : strTrim s1 ≠ "Uncategorized")
    (hc2 : ∃ s2, r2.category = some s2 ∧ strTrim s2 ≠ "")
    (hi : i < df.length)
    (hm1 : ciSearch (pyStrCell r1.pattern)
      ((df.getD i default).description) = true)
    (hm2 : ciSearch (pyStrCell r2.pattern)
      ((df.getD i default).description) = true)
    (hd : isDefaultCat ((df.getD i default).category) = true) :
    (apply_rules true true df (load_rules tbl)).getD i default
      = ruleRow (compileRule r1) (df.getD i default)
    ∧ ((apply_rules true true df (load_rules tbl)).getD i default).category
      = some (strTrim s1) := by
  have hload : load_rules tbl = [compileRule r1, compileRule r2] := by
    rcases htbl with rfl | rfl
    · exact load_rules_pair r1 r2
        (by simp [normPriority, hp1, hp2])
    · exact load_rules_pair_swap r2 r1
        (by simp [normPriority, hp1, hp2])
  rw [hload, apply_rules_getD true true df _ i hi]
  have hinit : initRow true true (df.getD i default) = df.getD i default := rfl
  rw [hinit]
  simp only [List.foldl_cons, List.foldl_nil]
  have hcat1 : strTrim (pyStrCell (compileRule r1).category) = strTrim s1 := by
    simp [compileRule, hc1, pyStrCell]
  have hpass1 : passRow (compileRule r1) (df.getD i default)
      = ruleRow (compileRule r1) (df.getD i default) := by
    unfold passRow
    rw [hcat1, if_neg hs1]
  have hrx1 : (compileRule r1).rx ((df.getD i default).description) = true :=
    hm1
  have hcatafter : (ruleRow (compileRule r1) (df.getD i default)).category
      = some (strTrim s1) := by
    rw [ruleRow_match_category _ _ hrx1 hd, hcat1]
  have hnd : isDefaultCat
      (ruleRow (compileRule r1) (df.getD i default)).category = false := by
    rw [hcatafter]
    simp [isDefaultCat, hs1, hs1u]
  rw [hpass1, passRow_nondefault _ _ hnd]
  exact ⟨rfl, hcatafter⟩

def c6r1 : RawRule :=
  { pattern := some "UBER", priority := some 1,
    category := some "Uncategorized", subcategory := none,
    type_hint := none }

def c6r2 : RawRule :=
  { pattern := some "UBER", priority := some 2,
    category := some "Transport", subcategory := none, type_hint := none }

def c6tx : LTx :=
  { date := some ⟨2024, 1, 15⟩, description := "UBER TRIP 123",
    amount := some ⟨-4590, 2⟩, source := "nubank", external_id := "A1",
    file_name := "n.ofx", ty := "expense", tx_id := "11",
    category := some "Uncategorized", subcategory := some "Uncategorized" }

/-- C6 counterexample: both rules have nonempty categories and match, with
priorities 1 and 2, yet the final category is the priority-2 category,
because the priority-1 category is the literal default marker, which leaves
the transaction eligible for the next rule. This refutes the frozen claim,
which promises the priority-1 category for every nonempty category pair. -/
theorem C6_counterexample :
    (apply_rules true true [c6tx]
        (load_rules [c6r1, c6r2])).map (fun t => t.category)
      = [some "Transport"]
    ∧ c6r1.category = some "Uncategorized"
    ∧ ("Uncategorized" : String) ≠ ""
    ∧ ("Transport" : String) ≠ "Uncategorized" := by
  decide

def c6w2 : RawRule :=
  { pattern := some "UBER", priority := some 2, category := some "Food",
    subcategory := none, type_hint := none }

def c6wtx : LTx :=
  { date := some ⟨2024, 1, 15⟩, description := "UBER TRIP 123",
    amount := some ⟨-4590, 2⟩, source := "nubank", external_id := "A1",
    file_name := "n.ofx", ty := "expense", tx_id := "11",
    category := some "Uncategorized", subcategory := some "Uncategorized" }

/-- C6 witness: the amended priority statement on a concrete table given in
reversed file order. -/
theorem C6_priority_witness :
    ((apply_rules true true [c6wtx]
        (load_rules [c6w2, c3rule])).getD 0 default).category
      = some "Transport" := by
  have h := C6_priority c3rule c6w2 [c6w2, c3rule] [c6wtx] 0 "Transport"
    (Or.inr rfl) rfl rfl rfl (by decide) (by decide)
    ⟨"Food", rfl, by decide⟩ (by decide) (by decide) (by decide) (by decide)
  exact h.2.trans (by decide)

/-! ## C7: sort stability of the rule compiler -/

/-- C7 (amended): load_rules sorts the table ascending by normalized
priority, and the sort is stable for rule tables of at most 16 rows, where
the numpy introsort reduces to its insertion-sort path: at any two
positions of the compiled order holding equal normalized priorities, the
original row indices appear in increasing order. For larger tables the
partitioning quicksort reorders equal-priority rules; see the recorded
counterexample with 17 rules. -/
theorem C7_stable_small (tbl : List RawRule) (hn : tbl.length ≤ 16) :
    load_rules tbl
      = (rulesOrder tbl).map (fun i => compileRule (tbl.getD i default))
    ∧ ∀ (p q : Nat) (hp : p < (rulesOrder tbl).length)
        (hq : q < (rulesOrder tbl).length), p < q →
        (normPriority (tbl.getD ((rulesOrder tbl).get ⟨p, hp⟩) default)
          ≤ normPriority (tbl.getD ((rulesOrder tbl).get ⟨q, hq⟩) default)
        ∧ (normPriority (tbl.getD ((rulesOrder tbl).get ⟨p, hp⟩) default)
            = normPriority (tbl.getD ((rulesOrder tbl).get ⟨q, hq⟩) default)
          → (rulesOrder tbl).get ⟨p, hp⟩ < (rulesOrder tbl).get ⟨q, hq⟩)) := by
  refine ⟨rfl, ?_⟩
  intro p q hp hq hpq
  have hord : rulesOrder tbl
      = insSortIdx (fun i => normPriority (tbl.getD i default))
        (List.range tbl.length) := by
    unfold rulesOrder
    exact aquicksortArg_small _ _ hn
  have hpw : (rulesOrder tbl).Pairwise
      (idxLex (fun i => normPriority (tbl.getD i default))) := by
    rw [hord]
    exact pairwise_insSortIdx _ _ (List.pairwise_lt_range _)
  have hlex := List.pairwise_iff_get.mp hpw ⟨p, hp⟩ ⟨q, hq⟩
    (Fin.mk_lt_mk.mpr hpq)
  rcases hlex with h | ⟨h1, h2⟩
  · exact ⟨le_of_lt h, fun heq => absurd heq (ne_of_lt h)⟩
  · exact ⟨le_of_eq h1, fun _ => h2⟩

/-- Seventeen rules with identical priority and distinct patterns. -/
def tbl17 : List RawRule :=
  (List.range 17).map (fun i =>
    { pattern := some ("P" ++ toString i), priority := some 1,
      category := some "C", subcategory := none, type_hint := none })

/-- C7 counterexample: on a 17-row table of equal priorities the compiled
order is not the original order: the rule of row 14 comes out at position 1
and the rule of row 13 at position 2, although row 13 preceded row 14 in
the file and their normalized priorities are equal. The permutation listed
is the one the numpy introsort produces after a single partition pass. -/
theorem C7_counterexample :
    rulesOrder tbl17
      = [0, 14, 13, 12, 11, 10, 9, 15, 8, 6, 5, 4, 3, 2, 1, 7, 16]
    ∧ tbl17.map normPriority = List.replicate 17 1
    ∧ ((load_rules tbl17).map (fun c => c.pattern)).getD 1 "" = "P14"
    ∧ ((load_rules tbl17).map (fun c => c.pattern)).getD 2 "" = "P13"
    ∧ (tbl17.map (fun r => r.pattern)).getD 13 none = some "P13"
    ∧ (tbl17.map (fun r => r.pattern)).getD 14 none = some "P14" := by
  decide

/-- A two-row table with equal priorities. -/
def tblW : List RawRule :=
  [ { pattern := some "A", priority := some 5, category := some "CA",
      subcategory := none, type_hint := none },
    { pattern := some "B", priority := some 5, category := some "CB",
      subcategory := none, type_hint := none } ]

/-- C7 witness: the stability statement instantiated on a concrete
two-row table of equal priorities. -/
theorem C7_stable_small_witness :
    tblW.length ≤ 16
    ∧ normPriority (tblW.getD 0 default) = normPriority (tblW.getD 1 default)
    ∧ (rulesOrder tblW).getD 0 0 < (rulesOrder tblW).getD 1 0 := by
  refine ⟨by decide, by decide, ?_⟩
  have h := (C7_stable_small tblW (by decide)).2 0 1 (by decide) (by decide)
    (by decide)
  have h2 := h.2 (by decide)
  simpa [List.get_eq_getElem, List.getD_eq_getElem] using h2

/-! ## C1 and C2: the Nubank reimport duplicates

The Nubank append_to_ledger reads ledger.csv back without forcing the tx_id
column to strings, so a previously persisted ledger presents integer tx_id
values while the freshly imported batch presents strings; drop_duplicates
then never identifies an old row with a new one and overlapping imports
accumulate. The Itau script avoids this by passing dtype tx_id string. -/

instance {ε α : Type} [DecidableEq ε] [DecidableEq α] :
    DecidableEq (Except ε α) := fun
  | .error e1, .error e2 =>
    if h : e1 = e2 then .isTrue (by rw [h])
    else .isFalse (by intro hc; cases hc; exact h rfl)
  | .error _, .ok _ => .isFalse (by intro hc; cases hc)
  | .ok _, .error _ => .isFalse (by intro hc; cases hc)
  | .ok a1, .ok a2 =>
    if h : a1 = a2 then .isTrue (by rw [h])
    else .isFalse (by intro hc; cases hc; exact h rfl)

/-- A one-transaction Nubank statement. -/
def nbText : String :=
  "<OFX><STMTTRN><DTPOSTED>20240115<TRNAMT>-45.90<MEMO>UBER TRIP<FITID>ABC123</STMTTRN></OFX>"

/-- The ledger file after one Nubank importer run on an empty ledger. -/
def nbLedger1 : List CsvRow :=
  match Nubank.runOnce nbText "nubank.ofx" none with
  | .ok l => l
  | .error _ => []

/-- The ledger file after a second Nubank run on the same statement. -/
def nbLedger2 : List CsvRow :=
  match Nubank.runOnce nbText "nubank.ofx" (some nbLedger1) with
  | .ok l => l
  | .error _ => []

/-- C1: importing the same Nubank statement twice duplicates the
transaction: the first run leaves one row, the second run leaves two rows
carrying the same persisted tx_id text, so the imported tx_id appears in
two ledger rows, not one. The count of distinct tx_id values stays one,
but the claim also demands one row per imported tx_id, which fails. -/
theorem C1_nubank_reimport :
    nbLedger1.length = 1
    ∧ nbLedger2.length = 2
    ∧ (nbLedger2.getD 0 default).tx_id = (nbLedger2.getD 1 default).tx_id
    ∧ (nbLedger2.map (fun r => r.tx_id)).dedup.length = 1
    ∧ Nubank.runOnce nbText "nubank.ofx" none = .ok nbLedger1
    ∧ Nubank.runOnce nbText "nubank.ofx" (some nbLedger1)
        = .ok nbLedger2 := by
  decide

/-- The batch imported from the same statement, as append_to_ledger
receives it. -/
def nbBatch : List Row :=
  match Nubank.import_nubank_ofx nbText "nubank.ofx" with
  | .ok rows => rows
  | .error _ => []

/-- C2: merging a batch into an existing persisted ledger that already
holds the same tx_id yields two rows with the same persisted tx_id text,
violating the no-duplicate invariant; the surviving first row is the
existing one, but the new row is not dropped. -/
theorem C2_nubank_append :
    (Nubank.append_to_ledger (some nbLedger1) nbBatch).length = 2
    ∧ ((Nubank.append_to_ledger (some nbLedger1) nbBatch).getD 0
        default).tx_id
      = ((Nubank.append_to_ledger (some nbLedger1) nbBatch).getD 1
        default).tx_id
    ∧ (Nubank.append_to_ledger (some nbLedger1) nbBatch).getD 0 default
      = nbLedger1.getD 0 default := by
  decide

/-! ## C8 and C9: blank rule cells become the string nan

read_csv stores a blank cell as NaN and the rule loop goes through
str(...) on every cell, so a blank category or subcategory reaches the
checks as the nonempty string nan: the empty-category guard does not fire
and the blank-subcategory fallback does not fire. -/

def c8rule : RawRule :=
  { pattern := some "MARKET", priority := some 1, category := none,
    subcategory := none, type_hint := none }

def c8tx : LTx :=
  { date := some ⟨2024, 1, 15⟩, description := "MARKET 99",
    amount := some ⟨-1000, 2⟩, source := "itau", external_id := "B1",
    file_name := "i.ofx", ty := "expense", tx_id := "21",
    category := some "Uncategorized", subcategory := some "Uncategorized" }

/-- C8: a rule whose category cell is blank in the rule file is applied
regardless: the matching transaction ends with category nan and
subcategory nan, where the claim demands that the rule change nothing. -/
theorem C8_blank_category_applied :
    (apply_rules true true [c8tx] (load_rules [c8rule])).map
        (fun t => (t.category, t.subcategory))
      = [(some "nan", some "nan")]
    ∧ c8rule.category = none
    ∧ (some "nan" : Option String) ≠ some "Uncategorized" := by
  decide

def c9tx : LTx :=
  { date := some ⟨2024, 1, 15⟩, description := "UBER TRIP 123",
    amount := some ⟨-4590, 2⟩, source := "nubank", external_id := "A1",
    file_name := "n.ofx", ty := "expense", tx_id := "31",
    category := some "Uncategorized", subcategory := some "Uncategorized" }

/-- C9: a rule with pattern UBER, priority 1, category Transport and a
blank subcategory cell, applied to the description UBER TRIP 123, sets
category Transport but subcategory nan, not Transport: the blank cell
reaches the fallback check as the nonempty string nan. -/
theorem C9_blank_subcategory :
    (apply_rules true true [c9tx] (load_rules [c3rule])).map
        (fun t => (t.category, t.subcategory))
      = [(some "Transport", some "nan")]
    ∧ c3rule.subcategory = none
    ∧ (some "nan" : Option String) ≠ some "Transport" := by
  decide
